import Mathlib

/-!
Shallow embedding of the conversation-orchestration core of the
AgentSurfTripPlanner repository (surf_planner package): state model,
node functions, routing (edge) functions and the parsing helpers, together
with theorems checking the natural-language specification against them.

Conventions of the embedding:
* Python strings on which index arithmetic is performed (`str.find`,
  `str.rfind`, slicing) are modelled as `List Char`; other strings as `String`.
* Python `date` objects are modelled by their proleptic-Gregorian ordinal
  (`date.toordinal()`), an `Int`; `date.weekday()` and `timedelta` arithmetic
  become integer arithmetic on the ordinal.
* External collaborators (the language model, the stdlib `json.loads` parser,
  `date.fromisoformat`, the domain tools) are parameters of the embedded
  functions, exactly as they are injected dependencies in the source; a
  raised exception of such a collaborator is modelled by an explicit
  constructor (`ToolResult.raises`) or by `Option` (`none` = the call raised).
* A Python function that can raise an exception that the source does not
  catch returns a `NodeResult` (`ret` = normal return, `raise` = uncaught
  exception propagating out of the node).
-/

namespace SurfPlanner

/-! ### Python string helpers -/

/-- `sub in s` for Python strings: `sub` occurs as a contiguous substring. -/
def strContains (hay sub : String) : Bool :=
  decide (sub.toList <:+: hay.toList)

/-- Python truthiness of an optional string (`None` and `""` are falsy). -/
def optStrTruthy : Option String → Bool
  | none => false
  | some s => !s.isEmpty

/-- Python `str.find(c)` on a character list: index of the first occurrence,
`-1` when absent. -/
def pyFind (c : Char) : List Char → Int
  | [] => -1
  | x :: xs =>
    if x = c then 0
    else
      let r := pyFind c xs
      if r = -1 then -1 else r + 1

/-- Python `str.rfind(c)` on a character list: index of the last occurrence,
`-1` when absent. -/
def pyRfind (c : Char) : List Char → Int
  | [] => -1
  | x :: xs =>
    let r := pyRfind c xs
    if r ≠ -1 then r + 1
    else if x = c then 0 else -1

/-! ### Dates (`surf_planner/agent/helpers.py`, `surf_planner/tools/helpers.py`) -/

/-- Python `date.weekday()` on the date's ordinal: Monday is 0, Sunday is 6
(ordinal 1 is 0001-01-01, a Monday). -/
def pyWeekday (o : Int) : Int := (o - 1) % 7

/-- `get_weekend_dates` (agent/helpers.py lines 7-23, identical copy in
tools/helpers.py): the Saturday and Sunday of the weekend following or
including the given departure date. -/
def get_weekend_dates (departure_date : Int) : Int × Int :=
  let day_of_week := pyWeekday departure_date
  let saturday :=
    if day_of_week < 5 then departure_date + (5 - day_of_week)
    else if day_of_week = 5 then departure_date else departure_date - 1
  (saturday, saturday + 1)

/-- Ordinal to civil (year, month, day), the standard era-based conversion
(used to model Python's `date.isoformat`).  Python ordinal 1 = 0001-01-01. -/
def civilFromOrdinal (o : Int) : Int × Int × Int :=
  let z := o + 305
  let era := (if 0 ≤ z then z else z - 146096) / 146097
  let doe := z - era * 146097
  let yoe := (doe - doe / 1460 + doe / 36524 - doe / 146096) / 365
  let y := yoe + era * 400
  let doy := doe - (365 * yoe + yoe / 4 - yoe / 100)
  let mp := (5 * doy + 2) / 153
  let d := doy - (153 * mp + 2) / 5 + 1
  let m := if mp < 10 then mp + 3 else mp - 9
  (if m ≤ 2 then y + 1 else y, m, d)

/-- Left-pad a number with zeros to the given width. -/
def padNum (width : Nat) (n : Int) : String :=
  let s := toString n
  if s.length < width then String.mk (List.replicate (width - s.length) '0') ++ s
  else s

/-- Python `date.isoformat()` on the date's ordinal: `YYYY-MM-DD`. -/
def dateIso (o : Int) : String :=
  let c := civilFromOrdinal o
  padNum 4 c.1 ++ "-" ++ padNum 2 c.2.1 ++ "-" ++ padNum 2 c.2.2

/-! ### Tolerant JSON extraction (`agent/helpers.py` lines 26-42) -/

/-- The slicing step of `parse_llm_json_response`: locate the first `{` and
the last `}`; `none` when either is absent, otherwise the substring between
them (Python `raw_string[start_index:end_index]`). -/
def jsonSlice (raw : List Char) : Option (List Char) :=
  let start_index := pyFind '{' raw
  let end_index := pyRfind '}' raw + 1
  if start_index = -1 ∨ end_index = 0 then none
  else some ((raw.drop start_index.toNat).take (end_index.toNat - start_index.toNat))

/-- `parse_llm_json_response` (agent/helpers.py lines 26-42), generic in the
result of the external stdlib parser `json.loads`, which is modelled by the
parameter `loads` (`none` = `json.loads` raised `JSONDecodeError`). -/
def parse_llm_json_response {J : Type} (loads : List Char → Option J) (raw : List Char) :
    Option J :=
  match jsonSlice raw with
  | none => none
  | some json_string => loads json_string

/-! ### Data model (`surf_planner/state.py`) -/

/-- A Python value stored in a `trip_details` field: a string, a `date`
(by ordinal), or any other object (carrying only its truthiness). -/
inductive TDVal where
  | vstr (s : String)
  | vdate (o : Int)
  | vother (truthy : Bool)
deriving DecidableEq, Repr

/-- Python truthiness of a `TDVal`. -/
def TDVal.truthy : TDVal → Bool
  | .vstr s => !s.isEmpty
  | .vdate _ => true
  | .vother b => b

/-- Truthiness of `trip_details.get(key)` (`None` when the key is absent). -/
def tdTruthy : Option TDVal → Bool
  | none => false
  | some v => v.truthy

/-- `TripDetails` (state.py lines 8-14): all five fields optional
(`total=False`); `none` models an absent key. -/
structure TripDetails where
  departure_city : Option TDVal := none
  destination_city : Option TDVal := none
  departure_date : Option TDVal := none
  return_date : Option TDVal := none
  desired_surf_conditions : Option TDVal := none
deriving DecidableEq, Repr

/-- A pending tool call on an assistant message (`id`, `name`, `args`); the
argument record is opaque to the orchestration core and modelled as a
string. -/
structure ToolCall where
  id : String
  name : String
  args : String
deriving DecidableEq, Repr

/-- Message roles (`human` / `assistant` / `tool`). -/
inductive Role where
  | human
  | assistant
  | tool
deriving DecidableEq, Repr

/-- A conversation message: role, text content, pending tool calls (only an
assistant message carries them) and the `tool_call_id` linking a tool-role
message to the call it answers. -/
structure Message where
  role : Role
  content : String
  tool_calls : List ToolCall := []
  tool_call_id : Option String := none
deriving DecidableEq, Repr

/-- The value returned by a domain tool: either a Python string (subject to
the `"error"`-substring sniffing) or a non-string payload, a list of
structured records rendered as strings. -/
inductive ToolOutput where
  | ostr (s : String)
  | odata (items : List String)
deriving DecidableEq, Repr

/-- Python `str(output)` for a tool output (list rendering is a stand-in for
the Python `repr`-based rendering; no claim depends on its exact text). -/
def pyToString : ToolOutput → String
  | .ostr s => s
  | .odata items => "[" ++ String.intercalate ", " items ++ "]"

/-- `isinstance(output, str) and "error" in output.lower()` (nodes.py
lines 147 and 206). -/
def isErrOutput : ToolOutput → Bool
  | .ostr s => strContains s.toLower "error"
  | .odata _ => false

/-- Outcome of one tool invocation: the call raised, or returned a value. -/
inductive ToolResult where
  | raises (msg : String)
  | returns (out : ToolOutput)
deriving DecidableEq, Repr

/-- The tool registry `tool_map` (graph.py line 35): tool name to callable;
`none` models a name that is not a key of the dict. -/
def ToolRegistry := String → Option (String → ToolResult)

/-- `AgentState` (state.py lines 16-26).  The three accumulator lists hold
their records rendered as strings. -/
structure AgentState where
  messages : List Message := []
  trip_details : TripDetails := {}
  current_intent : Option String := none
  error : Option String := none
  calendar_availabilities : List String := []
  surf_forecasts : List String := []
  train_options : List String := []
deriving DecidableEq, Repr

/-- The partial update (a Python dict) returned by a node; `none` models an
absent key. -/
structure NodeUpdate where
  messages : Option (List Message) := none
  trip_details : Option TripDetails := none
  current_intent : Option String := none
  error : Option String := none
  calendar_availabilities : Option ToolOutput := none
  surf_forecasts : Option ToolOutput := none
  train_options : Option ToolOutput := none
deriving DecidableEq, Repr

/-- Result of running a node: a normal return of a partial update, or an
uncaught Python exception propagating out of the node. -/
inductive NodeResult where
  | ret (u : NodeUpdate)
  | raise (exn : String)
deriving DecidableEq, Repr

/-! ### State merge (the langgraph channels declared in state.py lines 16-26)

`messages` is annotated `add_messages` (append, modelled as list
concatenation), the three accumulator lists are annotated `operator.add`
(list concatenation — which raises `TypeError` when a node stored a plain
string there, modelled by `none`), and the remaining fields are plain
last-value channels (replaced when the key is present in the update). -/

/-- Merge one accumulator contribution into an accumulator list
(`operator.add`); `none` = the merge raises (list + str). -/
def accMerge (old : List String) : Option ToolOutput → Option (List String)
  | none => some old
  | some (.odata items) => some (old ++ items)
  | some (.ostr _) => none

/-- Apply one node update to the state; `none` = the merge raised. -/
def applyUpdate (s : AgentState) (u : NodeUpdate) : Option AgentState := do
  let cal ← accMerge s.calendar_availabilities u.calendar_availabilities
  let surf ← accMerge s.surf_forecasts u.surf_forecasts
  let train ← accMerge s.train_options u.train_options
  pure
    { messages := s.messages ++ u.messages.getD []
      trip_details := u.trip_details.getD s.trip_details
      current_intent := match u.current_intent with
        | some i => some i
        | none => s.current_intent
      error := match u.error with
        | some e => some e
        | none => s.error
      calendar_availabilities := cal
      surf_forecasts := surf
      train_options := train }

/-- Apply a sequence of node updates in order. -/
def applyUpdates (s : AgentState) (us : List NodeUpdate) : Option AgentState :=
  us.foldlM applyUpdate s

/-! ### `node_execute_tools` (`agent/nodes.py` lines 185-221) -/

/-- `TOOL_TO_STATE_MAP` (nodes.py lines 20-24). -/
def TOOL_TO_STATE_MAP : String → Option String := fun name =>
  if name = "check_calendar" then some "calendar_availabilities"
  else if name = "find_train_tickets" then some "train_options"
  else if name = "get_surf_forecast" then some "surf_forecasts"
  else none

/-- `state_updates[target_state_key] = output` (nodes.py line 215): a plain
dict assignment, overwriting any value stored for that key earlier in the
batch. -/
def storeOutput (acc : NodeUpdate) (name : String) (out : ToolOutput) : NodeUpdate :=
  if TOOL_TO_STATE_MAP name = some "calendar_availabilities" then
    { acc with calendar_availabilities := some out }
  else if TOOL_TO_STATE_MAP name = some "train_options" then
    { acc with train_options := some out }
  else if TOOL_TO_STATE_MAP name = some "surf_forecasts" then
    { acc with surf_forecasts := some out }
  else acc

/-- The tool message appended per successful call (nodes.py line 211). -/
def toolMessage (out : ToolOutput) (call_id : String) : Message :=
  { role := .tool, content := pyToString out, tool_call_id := some call_id }

/-- The `for tool_call in last_message.tool_calls` loop of
`node_execute_tools` (nodes.py lines 195-221).  Alongside the node result it
returns the number of `tool_to_call.invoke` calls performed, so that
fail-fast (no invocation after the aborting call) is statable.  The registry
lookup `tool_map[tool_name]` sits outside the `try`, so a missing name is an
uncaught `KeyError`. -/
def execLoop (tool_map : ToolRegistry) (tool_messages : List Message)
    (state_updates : NodeUpdate) (n : Nat) :
    List ToolCall → NodeResult × Nat
  | [] => (.ret { state_updates with messages := some tool_messages }, n)
  | tool_call :: rest =>
    match tool_map tool_call.name with
    | none => (.raise ("KeyError: " ++ tool_call.name), n)
    | some tool_to_call =>
      match tool_to_call tool_call.args with
      | .raises e =>
        (.ret { error :=
            some ("Critical failure in tool \x27" ++ tool_call.name ++ "\x27: " ++ e) },
          n + 1)
      | .returns output =>
        if isErrOutput output then (.ret { error := some (pyToString output) }, n + 1)
        else
          execLoop tool_map (tool_messages ++ [toolMessage output tool_call.id])
            (storeOutput state_updates tool_call.name output) (n + 1) rest

/-- `hasattr(last_message, "tool_calls") and last_message.tool_calls`: only
assistant messages carry the attribute. -/
def pendingToolCalls (m : Message) : List ToolCall :=
  match m.role with
  | .assistant => m.tool_calls
  | _ => []

/-- `node_execute_tools` (nodes.py lines 185-221), instrumented with the
number of tool invocations performed.  `state["messages"][-1]` on an empty
list is an uncaught `IndexError`. -/
def node_execute_tools (tool_map : ToolRegistry) (state : AgentState) :
    NodeResult × Nat :=
  match state.messages.getLast? with
  | none => (.raise "IndexError", 0)
  | some last_message =>
    if (pendingToolCalls last_message).isEmpty then (.ret {}, 0)
    else execLoop tool_map [] {} 0 (pendingToolCalls last_message)

/-- A pending call whose invocation succeeds: its name is a key of the
registry and the tool returns an output that is not an error-string. -/
def callSucceeds (tool_map : ToolRegistry) (c : ToolCall) : Bool :=
  match tool_map c.name with
  | none => false
  | some tool =>
    match tool c.args with
    | .raises _ => false
    | .returns out => !isErrOutput out

/-- The output returned for a call satisfying `callSucceeds` (dummy value
otherwise). -/
def successOutput (tool_map : ToolRegistry) (c : ToolCall) : ToolOutput :=
  match tool_map c.name with
  | none => .ostr ""
  | some tool =>
    match tool c.args with
    | .raises _ => .ostr ""
    | .returns out => out

/-- The output of the last call of a batch whose tool name targets the given
accumulator key, if any. -/
def lastOutputFor (tool_map : ToolRegistry) (key : String) : List ToolCall → Option ToolOutput
  | [] => none
  | c :: rest =>
    match lastOutputFor tool_map key rest with
    | some out => some out
    | none =>
      if TOOL_TO_STATE_MAP c.name = some key then some (successOutput tool_map c) else none

/-! ### `node_check_surf_forecast` (`agent/nodes.py` lines 121-152) -/

/-- The argument record passed to `get_surf_forecast.invoke` (nodes.py
lines 143-145). -/
structure SurfArgs where
  spot : TDVal
  from_date : String
  to_date : String
deriving DecidableEq, Repr

/-- `node_check_surf_forecast` (nodes.py lines 121-152); `surf_tool` is the
registry entry `tool_map.get("get_surf_forecast")`.  Alongside the node
result it returns the argument record of the tool invocation performed, if
any (`none` = the tool was not invoked).  `get_weekend_dates` is computed
(line 133) before the registry lookup (line 137), so a truthy non-date
`departure_date` raises `AttributeError` there. -/
def node_check_surf_forecast (surf_tool : Option (SurfArgs → ToolResult))
    (state : AgentState) : NodeResult × Option SurfArgs :=
  let trip_details := state.trip_details
  let departure_date := trip_details.departure_date
  let destination := trip_details.destination_city
  if !tdTruthy departure_date || !tdTruthy destination then
    (.ret { error := some "Missing departure date or destination for forecast." }, none)
  else
    match departure_date with
    | some (.vdate o) =>
      let wk := get_weekend_dates o
      match surf_tool with
      | none =>
        (.ret { error := some "Tool \x27get_surf_forecast\x27 not found." }, none)
      | some tool =>
        let args : SurfArgs :=
          { spot := destination.getD (.vother true)
            from_date := dateIso wk.1
            to_date := dateIso wk.2 }
        match tool args with
        | .raises e => (.raise e, some args)
        | .returns forecast_result =>
          if isErrOutput forecast_result then
            (.ret { error := some (pyToString forecast_result) }, some args)
          else (.ret { surf_forecasts := some forecast_result }, some args)
    | _ => (.raise "AttributeError", none)

/-! ### `node_update_trip_details` (`agent/nodes.py` lines 49-82) -/

/-- A JSON field value in the parsed model response: a JSON string or any
other JSON value (carrying only its truthiness). -/
inductive JFieldVal where
  | jstr (s : String)
  | jother (truthy : Bool)
deriving DecidableEq, Repr

/-- The parsed JSON object restricted to the five trip-detail keys (keys
outside the schema are carried along by the Python dict but never read by
the core and are not modelled). -/
structure ParsedDetails where
  departure_city : Option JFieldVal := none
  destination_city : Option JFieldVal := none
  departure_date : Option JFieldVal := none
  return_date : Option JFieldVal := none
  desired_surf_conditions : Option JFieldVal := none
deriving DecidableEq, Repr

/-- The `TDVal` stored for a parsed JSON field value. -/
def jToTD : JFieldVal → TDVal
  | .jstr s => .vstr s
  | .jother b => .vother b

/-- The first option when present, the second otherwise. -/
def firstSome {α : Type} : Option α → Option α → Option α
  | some x, _ => some x
  | none, b => b

/-- `new_trip_details = state.get("trip_details", {}).copy();
new_trip_details.update(parsed_info)` (nodes.py lines 68-69): keys present
in `parsed_info` overwrite, the others keep their current value. -/
def dictUpdate (cur : TripDetails) (p : ParsedDetails) : TripDetails where
  departure_city := firstSome (p.departure_city.map jToTD) cur.departure_city
  destination_city := firstSome (p.destination_city.map jToTD) cur.destination_city
  departure_date := firstSome (p.departure_date.map jToTD) cur.departure_date
  return_date := firstSome (p.return_date.map jToTD) cur.return_date
  desired_surf_conditions :=
    firstSome (p.desired_surf_conditions.map jToTD) cur.desired_surf_conditions

/-- The date-parsing step (nodes.py lines 72-75) for one field: a string
value is converted with `date.fromisoformat` (the external stdlib parser,
modelled by `fromiso`; `none` = it raised `ValueError`, which the `except`
clause on line 79 — catching only `json.JSONDecodeError` and `TypeError` —
does not catch). -/
def convertDateField (fromiso : String → Option Int) :
    Option TDVal → Except String (Option TDVal)
  | some (.vstr s) =>
    match fromiso s with
    | some o => .ok (some (.vdate o))
    | none => .error "ValueError"
  | v => .ok v

/-- `node_update_trip_details` (nodes.py lines 49-82).  `loads` models
`json.loads` inside `parse_llm_json_response`; `response` is the model
response text.  When `parse_llm_json_response` returns `None`,
`new_trip_details.update(None)` raises `TypeError`, which line 79 catches:
the node returns the empty update. -/
def node_update_trip_details (loads : List Char → Option ParsedDetails)
    (fromiso : String → Option Int) (response : List Char) (state : AgentState) :
    NodeResult :=
  match parse_llm_json_response loads response with
  | none => .ret {}
  | some parsed_info =>
    let new0 := dictUpdate state.trip_details parsed_info
    match convertDateField fromiso new0.departure_date with
    | .error e => .raise e
    | .ok dd =>
      match convertDateField fromiso new0.return_date with
      | .error e => .raise e
      | .ok rd =>
        .ret { trip_details := some { new0 with departure_date := dd, return_date := rd } }

/-! ### Routing functions (`agent/edges.py`) and path maps (`agent/graph.py`) -/

/-- `edge_from_intent` (edges.py lines 7-18): a falsy `current_intent`
(absent or empty) routes to `"error"`; otherwise the intent string is
returned verbatim. -/
def edge_from_intent (state : AgentState) : String :=
  match state.current_intent with
  | none => "error"
  | some intent => if intent.isEmpty then "error" else intent

/-- The conditional-edge path map out of `route_intent` (graph.py
lines 68-76); `none` = the routing key has no entry (langgraph raises). -/
def route_intent_path_map : String → Option String := fun key =>
  if key = "update_details" then some "update_trip_details"
  else if key = "chat" then some "chat_with_user"
  else if key = "error" then some "handle_error"
  else none

/-- `state.get("trip_details", {}).get("desired_surf_conditions", "any")`
rendered for the prompt (edges.py line 44). -/
def desiredConditions (state : AgentState) : String :=
  match state.trip_details.desired_surf_conditions with
  | some (.vstr s) => s
  | some (.vdate o) => dateIso o
  | some (.vother _) => "<object>"
  | none => "any"

/-- Rendering of `str(forecast_data)` handed to the prompt (stand-in for the
Python list `repr`; no claim depends on its exact text). -/
def forecastDataStr (state : AgentState) : String :=
  "[" ++ String.intercalate ", " state.surf_forecasts ++ "]"

/-- `edge_after_forecast` (edges.py lines 37-59); `model` is the injected
language model, mapping the two prompt inputs (`desired_conditions`,
`str(forecast_data)`) to the response text. -/
def edge_after_forecast (state : AgentState) (model : String → String → String) :
    String :=
  let forecast_data := state.surf_forecasts
  if forecast_data.isEmpty || optStrTruthy state.error then "forecast_is_bad"
  else
    let response := model (desiredConditions state) (forecastDataStr state)
    if strContains response.toLower "yes" then "forecast_is_good"
    else "forecast_is_bad"

/-- The conditional-edge path map out of `check_surf_forecast` (graph.py
lines 89-96). -/
def check_surf_forecast_path_map : String → Option String := fun key =>
  if key = "forecast_is_good" then some "plan_travel_logistics"
  else if key = "forecast_is_bad" then some "inform_user_of_bad_surf"
  else none

/-! ### Concrete instances used by witnesses and counterexamples -/

/-- A registry whose calendar tool succeeds and whose train tool raises. -/
def calendarThenTrainRegistry : ToolRegistry := fun n =>
  if n = "check_calendar" then some (fun _ => .returns (.odata ["free"]))
  else if n = "find_train_tickets" then some (fun _ => .raises "boom") else none

def calendarCall : ToolCall := ⟨"id1", "check_calendar", "a1"⟩

def trainCall : ToolCall := ⟨"id2", "find_train_tickets", "a2"⟩

/-- An assistant message with a pending calendar call followed by a pending
train call. -/
def twoCallMessage : Message where
  role := .assistant
  content := ""
  tool_calls := [calendarCall, trainCall]

def twoCallState : AgentState := { messages := [twoCallMessage] }

/-- A registry mapping only `get_surf_forecast`, returning a different
record list for each argument blob. -/
def surfTwiceRegistry : ToolRegistry := fun n =>
  if n = "get_surf_forecast" then
    some (fun args =>
      if args = "a1" then .returns (.odata ["A"]) else .returns (.odata ["B"]))
  else none

def surfCall1 : ToolCall := ⟨"id1", "get_surf_forecast", "a1"⟩

def surfCall2 : ToolCall := ⟨"id2", "get_surf_forecast", "a2"⟩

/-- An assistant message with two pending `get_surf_forecast` calls. -/
def surfTwiceMessage : Message where
  role := .assistant
  content := ""
  tool_calls := [surfCall1, surfCall2]

def surfTwiceState : AgentState := { messages := [surfTwiceMessage] }

def mysteryCall : ToolCall := ⟨"id1", "mystery_tool", "a1"⟩

/-- An assistant message with one pending call whose tool name no registry
entry matches. -/
def mysteryMessage : Message where
  role := .assistant
  content := ""
  tool_calls := [mysteryCall]

def mysteryState : AgentState := { messages := [mysteryMessage] }

/-- A state with one prior record in each accumulator. -/
def mergeStateW : AgentState where
  calendar_availabilities := ["c0"]
  surf_forecasts := ["s0"]
  train_options := ["t0"]

/-- An update contributing one surf-forecast record. -/
def mergeUpdateW : NodeUpdate := { surf_forecasts := some (.odata ["s1"]) }

/-- The state after applying `mergeUpdateW` to `mergeStateW`. -/
def mergeStateW' : AgentState where
  calendar_availabilities := ["c0"]
  surf_forecasts := ["s0", "s1"]
  train_options := ["t0"]

/-- A parsed model response carrying only a departure city. -/
def parsedCityW : ParsedDetails := { departure_city := some (.jstr "Paris") }

/-- The state reached from the empty state by the corresponding
`update_trip_details` update. -/
def cityStateW' : AgentState where
  trip_details := { departure_city := some (.vstr "Paris") }

/-! ## Theorems -/

/-- C7: for every date `d`, `get_weekend_dates d` returns a pair
`(saturday, sunday)` with `saturday = d + (5 - weekday d)` when
`weekday d < 5`, `saturday = d` when `weekday d = 5`, `saturday = d - 1`
when `weekday d = 6`, and `sunday = saturday + 1`; the first component
always falls on a Saturday and the second on the immediately following
Sunday. -/
theorem C7_weekend_window (d s u : Int) (h : get_weekend_dates d = (s, u)) :
    (pyWeekday d < 5 → s = d + (5 - pyWeekday d))
    ∧ (pyWeekday d = 5 → s = d)
    ∧ (pyWeekday d = 6 → s = d - 1)
    ∧ u = s + 1
    ∧ pyWeekday s = 5
    ∧ pyWeekday u = 6 := by
  simp only [get_weekend_dates, pyWeekday, Prod.mk.injEq] at h
  obtain ⟨hs, hu⟩ := h
  simp only [pyWeekday]
  split_ifs at hs with h1 h2 <;> omega

/-- Witness for C7 at the Wednesday ordinal 3 (0001-01-03): the window is
(6, 7), the same-week Saturday and Sunday. -/
theorem C7_weekend_window_witness :
    (pyWeekday 3 < 5 → (6 : Int) = 3 + (5 - pyWeekday 3))
    ∧ (pyWeekday 3 = 5 → (6 : Int) = 3)
    ∧ (pyWeekday 3 = 6 → (6 : Int) = 3 - 1)
    ∧ (7 : Int) = 6 + 1
    ∧ pyWeekday 6 = 5
    ∧ pyWeekday 7 = 6 :=
  C7_weekend_window 3 6 7 (by decide)

/-- C1 (counterexample): on `current_intent = "plan_trip"` — a value outside
`{update_details, chat, error}` — `edge_from_intent` does not yield
`"error"`: it returns the intent verbatim, a key the path map out of
`route_intent` does not contain. -/
theorem C1_unknown_intent_cex :
    edge_from_intent { current_intent := some "plan_trip" } ≠ "error"
    ∧ edge_from_intent { current_intent := some "plan_trip" } = "plan_trip"
    ∧ route_intent_path_map
        (edge_from_intent { current_intent := some "plan_trip" }) = none := by
  refine ⟨by decide, by decide, by decide⟩

/-- C1 (amended): `edge_from_intent` sends `current_intent =
"update_details"` to `update_trip_details` and `"chat"` to `chat_with_user`;
an absent or empty `current_intent` yields `"error"` (routing to
`handle_error`); any other non-empty value is returned verbatim (and so has
no entry in the path map). -/
theorem C1_edge_from_intent_amended (state : AgentState) :
    (state.current_intent = some "update_details" →
      edge_from_intent state = "update_details"
      ∧ route_intent_path_map (edge_from_intent state) = some "update_trip_details")
    ∧ (state.current_intent = some "chat" →
      edge_from_intent state = "chat"
      ∧ route_intent_path_map (edge_from_intent state) = some "chat_with_user")
    ∧ ((state.current_intent = none ∨ state.current_intent = some "") →
      edge_from_intent state = "error"
      ∧ route_intent_path_map (edge_from_intent state) = some "handle_error")
    ∧ (∀ i, state.current_intent = some i → i.isEmpty = false →
      edge_from_intent state = i) := by
  refine ⟨fun h => ?_, fun h => ?_, fun h => ?_, fun i h hne => ?_⟩
  · rw [show edge_from_intent state = "update_details" by
      simp +decide [edge_from_intent, h]]
    exact ⟨rfl, by decide⟩
  · rw [show edge_from_intent state = "chat" by simp +decide [edge_from_intent, h]]
    exact ⟨rfl, by decide⟩
  · have he : edge_from_intent state = "error" := by
      rcases h with h | h <;> simp +decide [edge_from_intent, h]
    rw [he]
    exact ⟨rfl, by decide⟩
  · simp [edge_from_intent, h, hne]

/-- Witness for C1 (amended) at concrete intents. -/
theorem C1_edge_from_intent_amended_witness :
    (edge_from_intent { current_intent := some "update_details" } = "update_details"
      ∧ route_intent_path_map (edge_from_intent { current_intent := some "update_details" })
          = some "update_trip_details")
    ∧ (edge_from_intent { current_intent := some "chat" } = "chat"
      ∧ route_intent_path_map (edge_from_intent { current_intent := some "chat" })
          = some "chat_with_user")
    ∧ (edge_from_intent { current_intent := none } = "error"
      ∧ route_intent_path_map (edge_from_intent { current_intent := none })
          = some "handle_error")
    ∧ edge_from_intent { current_intent := some "surf" } = "surf" :=
  ⟨(C1_edge_from_intent_amended _).1 rfl,
   (C1_edge_from_intent_amended _).2.1 rfl,
   (C1_edge_from_intent_amended _).2.2.1 (Or.inl rfl),
   (C1_edge_from_intent_amended _).2.2.2 "surf" rfl (by decide)⟩

/-- C4: after `check_surf_forecast`, an empty `surf_forecasts` or a truthy
`error` makes `edge_after_forecast` return `"forecast_is_bad"` for every
model (so without consulting it), routing to `inform_user_of_bad_surf` and
never to `plan_travel_logistics`; otherwise it returns
`"forecast_is_good"` iff the model response contains `"yes"`
case-insensitively. -/
theorem C4_forecast_gating (state : AgentState) (model : String → String → String) :
    ((state.surf_forecasts = [] ∨ optStrTruthy state.error = true) →
      (∀ model2 : String → String → String,
        edge_after_forecast state model2 = "forecast_is_bad")
      ∧ check_surf_forecast_path_map (edge_after_forecast state model)
          = some "inform_user_of_bad_surf"
      ∧ (∀ key, check_surf_forecast_path_map (edge_after_forecast state model) = some key →
          key ≠ "plan_travel_logistics"))
    ∧ (state.surf_forecasts ≠ [] → optStrTruthy state.error = false →
      (edge_after_forecast state model = "forecast_is_good"
        ↔ strContains
            (model (desiredConditions state) (forecastDataStr state)).toLower "yes"
            = true)) := by
  constructor
  · intro h
    have hcond : (state.surf_forecasts.isEmpty || optStrTruthy state.error) = true := by
      rcases h with h | h <;> simp [h]
    have hbad : ∀ m2 : String → String → String,
        edge_after_forecast state m2 = "forecast_is_bad" := by
      intro m2
      simp only [edge_after_forecast, hcond, if_true]
    refine ⟨hbad, ?_, ?_⟩
    · rw [hbad model]; decide
    · intro key hk
      rw [hbad model] at hk
      rw [show check_surf_forecast_path_map "forecast_is_bad"
            = some "inform_user_of_bad_surf" by decide] at hk
      cases hk
      decide
  · intro h1 h2
    have hne : state.surf_forecasts.isEmpty = false := by
      simpa [List.isEmpty_iff] using h1
    have hcond : (state.surf_forecasts.isEmpty || optStrTruthy state.error) = false := by
      simp [hne, h2]
    simp only [edge_after_forecast, hcond, Bool.false_eq_true, if_false]
    cases hy :
        strContains (model (desiredConditions state) (forecastDataStr state)).toLower "yes" <;>
      simp +decide [hy]

/-- Witness for C4 at concrete states: empty forecasts route to bad surf
regardless of the model; a non-empty forecast with a "Yes" response routes
to good. -/
theorem C4_forecast_gating_witness :
    ((∀ model2 : String → String → String,
        edge_after_forecast { surf_forecasts := [] } model2 = "forecast_is_bad")
      ∧ check_surf_forecast_path_map
          (edge_after_forecast { surf_forecasts := [] } (fun _ _ => "yes"))
          = some "inform_user_of_bad_surf"
      ∧ (∀ key, check_surf_forecast_path_map
            (edge_after_forecast { surf_forecasts := [] } (fun _ _ => "yes")) = some key →
          key ≠ "plan_travel_logistics"))
    ∧ (edge_after_forecast { surf_forecasts := ["wave 2m"] } (fun _ _ => "Yes, go!")
          = "forecast_is_good"
        ↔ strContains
            ((fun (_ _ : String) => "Yes, go!")
              (desiredConditions { surf_forecasts := ["wave 2m"] })
              (forecastDataStr { surf_forecasts := ["wave 2m"] })).toLower "yes"
            = true) :=
  ⟨(C4_forecast_gating { surf_forecasts := [] } (fun _ _ => "yes")).1 (Or.inl rfl),
   (C4_forecast_gating { surf_forecasts := ["wave 2m"] } (fun _ _ => "Yes, go!")).2
     (by decide) rfl⟩

/-! ### Lemmas about `pyFind` and `pyRfind` -/

theorem pyFind_ge (c : Char) (l : List Char) : -1 ≤ pyFind c l := by
  induction l with
  | nil => simp [pyFind]
  | cons x xs ih =>
    simp only [pyFind]
    split_ifs <;> omega

theorem pyFind_eq_neg_one (c : Char) (l : List Char) (h : c ∉ l) : pyFind c l = -1 := by
  induction l with
  | nil => rfl
  | cons x xs ih =>
    simp only [List.mem_cons, not_or] at h
    simp only [pyFind, if_neg (fun hx : x = c => h.1 hx.symm), ih h.2]
    simp

theorem pyFind_append_found (c : Char) (l₁ l₂ : List Char) (h : pyFind c l₁ ≠ -1) :
    pyFind c (l₁ ++ l₂) = pyFind c l₁ := by
  induction l₁ with
  | nil => exact absurd rfl h
  | cons x xs ih =>
    by_cases hx : x = c
    · simp [pyFind, hx]
    · simp only [pyFind, if_neg hx] at h
      by_cases hxs : pyFind c xs = -1
      · rw [if_pos hxs] at h
        exact absurd rfl h
      · simp only [List.cons_append, pyFind, if_neg hx, List.append_eq, ih hxs,
          if_neg hxs]

theorem pyFind_append_shift (c : Char) (l₁ l₂ : List Char) (h1 : c ∉ l₁)
    (h2 : pyFind c l₂ ≠ -1) :
    pyFind c (l₁ ++ l₂) = l₁.length + pyFind c l₂ := by
  induction l₁ with
  | nil => simp
  | cons x xs ih =>
    simp only [List.mem_cons, not_or] at h1
    have hr := ih h1.2
    have hge := pyFind_ge c l₂
    simp only [List.cons_append, pyFind, if_neg (fun hx : x = c => h1.1 hx.symm),
      List.append_eq, hr]
    rw [if_neg (by omega)]
    simp only [List.length_cons]
    push_cast
    omega

theorem pyRfind_ge (c : Char) (l : List Char) : -1 ≤ pyRfind c l := by
  induction l with
  | nil => simp [pyRfind]
  | cons x xs ih =>
    simp only [pyRfind]
    split_ifs <;> omega

theorem pyRfind_eq_neg_one (c : Char) (l : List Char) (h : c ∉ l) : pyRfind c l = -1 := by
  induction l with
  | nil => rfl
  | cons x xs ih =>
    simp only [List.mem_cons, not_or] at h
    simp only [pyRfind, ih h.2, ne_eq, not_true_eq_false, if_neg, if_pos rfl,
      if_neg (fun hx : x = c => h.1 hx.symm)]
    simp

theorem pyRfind_append_keep (c : Char) (l₁ l₂ : List Char) (h : c ∉ l₂) :
    pyRfind c (l₁ ++ l₂) = pyRfind c l₁ := by
  induction l₁ with
  | nil => simpa using pyRfind_eq_neg_one c l₂ h
  | cons x xs ih =>
    simp only [List.cons_append, pyRfind, List.append_eq, ih]

theorem pyRfind_append_shift (c : Char) (l₁ l₂ : List Char) (h : pyRfind c l₂ ≠ -1) :
    pyRfind c (l₁ ++ l₂) = l₁.length + pyRfind c l₂ := by
  induction l₁ with
  | nil => simp
  | cons x xs ih =>
    have hge := pyRfind_ge c l₂
    simp only [List.cons_append, pyRfind, List.append_eq, ih]
    rw [if_pos (by simp only [ne_eq]; omega)]
    simp only [List.length_cons]
    push_cast
    omega

/-! ### Lemmas about `jsonSlice` -/

/-- A bare JSON-object text (starting with `{` and ending with `}`) is
sliced to itself. -/
theorem jsonSlice_bare (mid : List Char) :
    jsonSlice ('{' :: (mid ++ ['}'])) = some ('{' :: (mid ++ ['}'])) := by
  have hfind : pyFind '{' ('{' :: (mid ++ ['}'])) = 0 := by simp [pyFind]
  have hr1 : pyRfind '}' ['}'] ≠ -1 := by decide
  have hrfind : pyRfind '}' ('{' :: (mid ++ ['}'])) = (mid.length : Int) + 1 := by
    have h := pyRfind_append_shift '}' ('{' :: mid) ['}'] hr1
    simp only [List.cons_append] at h
    rw [h]
    simp [pyRfind, List.length_cons]
  simp only [jsonSlice]
  rw [hfind, hrfind, if_neg (by omega)]
  refine congrArg some ?_
  have hd : ((0 : Int)).toNat = 0 := rfl
  rw [hd, List.drop_zero]
  refine List.take_of_length_le ?_
  have hlen : ('{' :: (mid ++ ['}'])).length = mid.length + 2 := by simp
  rw [hlen]
  omega

/-- Wrapping a JSON-object text in brace-free prose does not change the
slice. -/
theorem jsonSlice_wrapped (pre mid suf : List Char)
    (h1 : '{' ∉ pre) (h2 : '}' ∉ pre) (h3 : '{' ∉ suf) (h4 : '}' ∉ suf) :
    jsonSlice (pre ++ ('{' :: (mid ++ ['}'])) ++ suf)
      = some ('{' :: (mid ++ ['}'])) := by
  set t := '{' :: (mid ++ ['}']) with ht
  have hfind_t : pyFind '{' t = 0 := by simp [ht, pyFind]
  have hfind_inner : pyFind '{' (t ++ suf) = 0 := by
    rw [pyFind_append_found '{' t suf (by rw [hfind_t]; decide), hfind_t]
  have hfind : pyFind '{' (pre ++ t ++ suf) = (pre.length : Int) := by
    rw [List.append_assoc,
      pyFind_append_shift '{' pre (t ++ suf) h1 (by rw [hfind_inner]; decide),
      hfind_inner]
    ring
  have hrfind_t : pyRfind '}' t = (mid.length : Int) + 1 := by
    have h := pyRfind_append_shift '}' ('{' :: mid) ['}'] (by decide)
    simp only [List.cons_append] at h
    rw [ht, h]
    simp [pyRfind, List.length_cons]
  have hrfind : pyRfind '}' (pre ++ t ++ suf) = (pre.length : Int) + mid.length + 1 := by
    rw [pyRfind_append_keep '}' (pre ++ t) suf h4,
      pyRfind_append_shift '}' pre t (by rw [hrfind_t]; omega), hrfind_t]
    ring
  simp only [jsonSlice]
  rw [hfind, hrfind, if_neg (by omega)]
  refine congrArg some ?_
  have hdrop : ((pre.length : Int)).toNat = pre.length := by omega
  have hlen : t.length = mid.length + 2 := by simp [ht]
  have htake : (((pre.length : Int) + mid.length + 1 + 1).toNat
      - ((pre.length : Int)).toNat) = t.length := by
    rw [hlen]
    omega
  rw [htake, hdrop, List.append_assoc, List.drop_left, List.take_left]

/-- C8: tolerant JSON extraction.  (1) An input with no `{` or no `}`
yields `none`; (2) when the slice between the first `{` and the last `}`
fails to parse, the result is `none`; (3) extraction is invariant under
wrapping a JSON-object text in brace-free prose (markdown fences and
explanatory prose contain no braces), so both yield the same object. -/
theorem C8_json_extraction {J : Type} (loads : List Char → Option J)
    (raw pre mid suf : List Char) :
    (('{' ∉ raw ∨ '}' ∉ raw) → parse_llm_json_response loads raw = none)
    ∧ (∀ sub, jsonSlice raw = some sub → loads sub = none →
        parse_llm_json_response loads raw = none)
    ∧ (('{' ∉ pre ∧ '}' ∉ pre ∧ '{' ∉ suf ∧ '}' ∉ suf) →
        parse_llm_json_response loads (pre ++ ('{' :: (mid ++ ['}'])) ++ suf)
          = parse_llm_json_response loads ('{' :: (mid ++ ['}']))) := by
  refine ⟨?_, ?_, ?_⟩
  · intro h
    have hnone : jsonSlice raw = none := by
      unfold jsonSlice
      rcases h with h | h
      · rw [pyFind_eq_neg_one _ _ h]
        simp
      · rw [pyRfind_eq_neg_one _ _ h]
        simp
    unfold parse_llm_json_response
    rw [hnone]
  · intro sub hsub hload
    unfold parse_llm_json_response
    rw [hsub]
    exact hload
  · intro h
    obtain ⟨h1, h2, h3, h4⟩ := h
    unfold parse_llm_json_response
    rw [jsonSlice_wrapped pre mid suf h1 h2 h3 h4, jsonSlice_bare]

/-- Witness for C8 at concrete inputs: a brace-free input yields `none`; a
braced input whose slice fails to parse yields `none`; wrapping the object
text in brace-free prose yields the same result as the bare text. -/
theorem C8_json_extraction_witness :
    parse_llm_json_response
        (fun l => if l = '{' :: (['a'] ++ ['}']) then some 1 else none) ['n', 'o'] = none
    ∧ parse_llm_json_response
        (fun l => if l = '{' :: (['a'] ++ ['}']) then some 1 else none)
        ['{', 'b', '}'] = none
    ∧ parse_llm_json_response
        (fun l => if l = '{' :: (['a'] ++ ['}']) then some 1 else none)
        (['p'] ++ ('{' :: (['a'] ++ ['}'])) ++ ['s'])
        = parse_llm_json_response
            (fun l => if l = '{' :: (['a'] ++ ['}']) then some 1 else none)
            ('{' :: (['a'] ++ ['}'])) :=
  ⟨(C8_json_extraction (fun l => if l = '{' :: (['a'] ++ ['}']) then some 1 else none)
      ['n', 'o'] [] [] []).1 (Or.inl (by decide)),
   (C8_json_extraction (fun l => if l = '{' :: (['a'] ++ ['}']) then some 1 else none)
      ['{', 'b', '}'] [] [] []).2.1 ['{', 'b', '}'] (by decide) (by decide),
   (C8_json_extraction (fun l => if l = '{' :: (['a'] ++ ['}']) then some 1 else none)
      [] ['p'] ['a'] ['s']).2.2 ⟨by decide, by decide, by decide, by decide⟩⟩

/-! ### Lemmas about `node_execute_tools` -/

theorem callSucceeds_elim (tm : ToolRegistry) (c : ToolCall)
    (h : callSucceeds tm c = true) :
    ∃ tool, tm c.name = some tool
      ∧ ∃ out, tool c.args = .returns out ∧ isErrOutput out = false := by
  unfold callSucceeds at h
  cases htm : tm c.name with
  | none => simp [htm] at h
  | some tool =>
    simp only [htm] at h
    cases hres : tool c.args with
    | raises e => simp [hres] at h
    | returns out =>
      simp only [hres] at h
      refine ⟨tool, rfl, out, hres, ?_⟩
      simpa using h

/-- Running the loop over a chunk of successful calls accumulates their tool
messages and stored outputs and proceeds with the remaining calls. -/
theorem execLoop_success_chunk (tm : ToolRegistry) (pre : List ToolCall)
    (hpre : ∀ c ∈ pre, callSucceeds tm c = true) (rest : List ToolCall)
    (msgs : List Message) (acc : NodeUpdate) (n : Nat) :
    execLoop tm msgs acc n (pre ++ rest)
      = execLoop tm (msgs ++ pre.map (fun c => toolMessage (successOutput tm c) c.id))
          (pre.foldl (fun a c => storeOutput a c.name (successOutput tm c)) acc)
          (n + pre.length) rest := by
  induction pre generalizing msgs acc n with
  | nil => simp
  | cons c cs ih =>
    obtain ⟨tool, htm, out, hres, herr⟩ := callSucceeds_elim tm c (hpre c (by simp))
    have hsucc : successOutput tm c = out := by
      simp only [successOutput, htm, hres]
    have hpre' : ∀ c' ∈ cs, callSucceeds tm c' = true := fun c' hc' =>
      hpre c' (by simp [hc'])
    simp only [List.cons_append, execLoop, htm, hres, herr, Bool.false_eq_true, if_false,
      List.append_eq]
    rw [ih hpre']
    have harith : n + 1 + cs.length = n + (cs.length + 1) := by omega
    simp only [List.map_cons, List.foldl_cons, hsucc, List.length_cons,
      List.append_assoc, List.singleton_append, harith]

theorem firstSome_none {α : Type} (x : Option α) : firstSome x none = x := by
  cases x <;> rfl

/-- The dict of stored outputs accumulated over a batch: each accumulator key
holds the output of the last call targeting it, the other update fields are
untouched. -/
theorem storeFold_fields (tm : ToolRegistry) (calls : List ToolCall) (acc : NodeUpdate) :
    (calls.foldl (fun a c => storeOutput a c.name (successOutput tm c)) acc).calendar_availabilities
        = firstSome (lastOutputFor tm "calendar_availabilities" calls) acc.calendar_availabilities
    ∧ (calls.foldl (fun a c => storeOutput a c.name (successOutput tm c)) acc).surf_forecasts
        = firstSome (lastOutputFor tm "surf_forecasts" calls) acc.surf_forecasts
    ∧ (calls.foldl (fun a c => storeOutput a c.name (successOutput tm c)) acc).train_options
        = firstSome (lastOutputFor tm "train_options" calls) acc.train_options
    ∧ (calls.foldl (fun a c => storeOutput a c.name (successOutput tm c)) acc).messages
        = acc.messages
    ∧ (calls.foldl (fun a c => storeOutput a c.name (successOutput tm c)) acc).trip_details
        = acc.trip_details
    ∧ (calls.foldl (fun a c => storeOutput a c.name (successOutput tm c)) acc).current_intent
        = acc.current_intent
    ∧ (calls.foldl (fun a c => storeOutput a c.name (successOutput tm c)) acc).error
        = acc.error := by
  induction calls generalizing acc with
  | nil => simp [lastOutputFor, firstSome]
  | cons c cs ih =>
    obtain ⟨ih1, ih2, ih3, ih4, ih5, ih6, ih7⟩ :=
      ih (storeOutput acc c.name (successOutput tm c))
    simp only [List.foldl_cons, lastOutputFor]
    refine ⟨?_, ?_, ?_, ?_, ?_, ?_, ?_⟩
    · rw [ih1]
      cases hlo : lastOutputFor tm "calendar_availabilities" cs
      · simp only [firstSome, storeOutput]
        split_ifs with h1 h2 h3 <;> simp_all [firstSome]
      · simp [firstSome]
    · rw [ih2]
      cases hlo : lastOutputFor tm "surf_forecasts" cs
      · simp only [firstSome, storeOutput]
        split_ifs with h1 h2 h3 <;> simp_all [firstSome]
      · simp [firstSome]
    · rw [ih3]
      cases hlo : lastOutputFor tm "train_options" cs
      · simp only [firstSome, storeOutput]
        split_ifs with h1 h2 h3 <;> simp_all [firstSome]
      · simp [firstSome]
    · rw [ih4]
      simp only [storeOutput]
      split_ifs <;> rfl
    · rw [ih5]
      simp only [storeOutput]
      split_ifs <;> rfl
    · rw [ih6]
      simp only [storeOutput]
      split_ifs <;> rfl
    · rw [ih7]
      simp only [storeOutput]
      split_ifs <;> rfl

/-- Entering the loop from `node_execute_tools` when the pending batch is
non-empty. -/
theorem node_execute_tools_enter (tm : ToolRegistry) (state : AgentState)
    (last : Message) (hlast : state.messages.getLast? = some last)
    (hne : pendingToolCalls last ≠ []) :
    node_execute_tools tm state = execLoop tm [] {} 0 (pendingToolCalls last) := by
  have hempty : (pendingToolCalls last).isEmpty = false := by
    simpa [List.isEmpty_iff] using hne
  simp only [node_execute_tools, hlast, hempty, Bool.false_eq_true, if_false]

/-- C2: fail-fast tool batch — when the calls before `c` in the pending
batch all succeed and `c`'s invocation raises or returns an error-string,
`node_execute_tools` returns an update consisting only of the `error`
field, performs no invocation beyond `c`'s, and discards the messages and
accumulator entries of the earlier successful calls. -/
theorem C2_execute_tools_fail_fast (tm : ToolRegistry) (state : AgentState)
    (last : Message) (pre : List ToolCall) (c : ToolCall) (rest : List ToolCall)
    (tool : String → ToolResult)
    (hlast : state.messages.getLast? = some last)
    (hcalls : pendingToolCalls last = pre ++ c :: rest)
    (hpre : ∀ c' ∈ pre, callSucceeds tm c' = true)
    (htool : tm c.name = some tool) :
    (∀ e, tool c.args = .raises e →
      node_execute_tools tm state
        = (.ret { error :=
              some ("Critical failure in tool \x27" ++ c.name ++ "\x27: " ++ e) },
            pre.length + 1))
    ∧ (∀ out, tool c.args = .returns out → isErrOutput out = true →
        node_execute_tools tm state
          = (.ret { error := some (pyToString out) }, pre.length + 1)) := by
  have hne : pendingToolCalls last ≠ [] := by
    rw [hcalls]
    simp
  have hstart : node_execute_tools tm state = execLoop tm [] {} 0 (pre ++ c :: rest) := by
    rw [node_execute_tools_enter tm state last hlast hne, hcalls]
  constructor
  · intro e hres
    rw [hstart, execLoop_success_chunk tm pre hpre (c :: rest) [] {} 0]
    simp only [execLoop, htool, hres, Nat.zero_add]
  · intro out hres herr
    rw [hstart, execLoop_success_chunk tm pre hpre (c :: rest) [] {} 0]
    simp only [execLoop, htool, hres, herr, if_true, Nat.zero_add]

/-- Witness for C2: a calendar call succeeds, then the train call raises;
the node reports only the error and stops after the second invocation. -/
theorem C2_execute_tools_fail_fast_witness :
    node_execute_tools calendarThenTrainRegistry twoCallState
      = (.ret { error :=
            some ("Critical failure in tool \x27" ++ trainCall.name ++ "\x27: " ++ "boom") },
          [calendarCall].length + 1) :=
  (C2_execute_tools_fail_fast calendarThenTrainRegistry twoCallState twoCallMessage
    [calendarCall] trainCall [] (fun _ => .raises "boom") rfl rfl
    (by
      intro c' hc'
      simp only [List.mem_singleton] at hc'
      subst hc'
      decide)
    rfl).1 "boom" rfl

/-- C9: a pending call whose name is not a key of the registry makes
`node_execute_tools` raise an uncaught `KeyError` at the lookup — before any
invocation of that call and instead of returning an `error` update. -/
theorem C9_unknown_tool_keyerror (tm : ToolRegistry) (state : AgentState)
    (last : Message) (pre : List ToolCall) (c : ToolCall) (rest : List ToolCall)
    (hlast : state.messages.getLast? = some last)
    (hcalls : pendingToolCalls last = pre ++ c :: rest)
    (hpre : ∀ c' ∈ pre, callSucceeds tm c' = true)
    (hmissing : tm c.name = none) :
    node_execute_tools tm state = (.raise ("KeyError: " ++ c.name), pre.length) := by
  have hne : pendingToolCalls last ≠ [] := by
    rw [hcalls]
    simp
  rw [node_execute_tools_enter tm state last hlast hne, hcalls,
    execLoop_success_chunk tm pre hpre (c :: rest) [] {} 0]
  simp only [execLoop, hmissing, Nat.zero_add]

/-- Witness for C9: a single pending call named `mystery_tool` with an empty
registry crashes the node with a `KeyError` and performs no invocation. -/
theorem C9_unknown_tool_keyerror_witness :
    node_execute_tools (fun _ => none) mysteryState
      = (.raise ("KeyError: " ++ mysteryCall.name), ([] : List ToolCall).length) :=
  C9_unknown_tool_keyerror (fun _ => none) mysteryState mysteryMessage
    [] mysteryCall [] rfl rfl (by intro c' hc'; cases hc') rfl

/-- C3 (counterexample): in a batch with two successful `get_surf_forecast`
calls returning `["A"]` and `["B"]`, the node's update carries only the
second output in `surf_forecasts` — the dict assignment overwrote the
first — so the batch does not contribute both outputs. -/
theorem C3_same_tool_overwrite_cex :
    node_execute_tools surfTwiceRegistry surfTwiceState
      = (.ret { messages := some [toolMessage (.odata ["A"]) "id1",
                  toolMessage (.odata ["B"]) "id2"]
                surf_forecasts := some (.odata ["B"]) }, 2)
    ∧ (ToolOutput.odata ["A"]) ≠ .odata ["B"] := by
  constructor
  · decide
  · decide

/-- C3 (amended): with no pending tool calls the node returns the empty
update; for a non-empty batch of all-successful calls it appends one
tool-role message per call, linked by that call's id and in call order, and
each accumulator key of the update holds the output of the *last* call of
the batch targeting it (a second call to the same tool within one batch
overwrites the earlier output in the update, so only the final output is
contributed). -/
theorem C3_execute_tools_success_amended (tm : ToolRegistry) (state : AgentState)
    (last : Message) (hlast : state.messages.getLast? = some last) :
    (pendingToolCalls last = [] → node_execute_tools tm state = (.ret {}, 0))
    ∧ (pendingToolCalls last ≠ [] →
      (∀ c ∈ pendingToolCalls last, callSucceeds tm c = true) →
      node_execute_tools tm state
        = (.ret { messages := some ((pendingToolCalls last).map fun c =>
                    toolMessage (successOutput tm c) c.id)
                  calendar_availabilities :=
                    lastOutputFor tm "calendar_availabilities" (pendingToolCalls last)
                  surf_forecasts :=
                    lastOutputFor tm "surf_forecasts" (pendingToolCalls last)
                  train_options :=
                    lastOutputFor tm "train_options" (pendingToolCalls last) },
            (pendingToolCalls last).length)) := by
  constructor
  · intro hempty
    simp only [node_execute_tools, hlast, hempty, List.isEmpty_nil, if_true]
  · intro hne hsucc
    rw [node_execute_tools_enter tm state last hlast hne]
    have h := execLoop_success_chunk tm (pendingToolCalls last) hsucc [] [] {} 0
    rw [List.append_nil] at h
    rw [h]
    obtain ⟨h1, h2, h3, h4, h5, h6, h7⟩ := storeFold_fields tm (pendingToolCalls last) {}
    simp only [execLoop, List.nil_append, Nat.zero_add]
    rw [h5, h6, h7, h1.trans (firstSome_none _), h2.trans (firstSome_none _),
      h3.trans (firstSome_none _)]

/-- Witness for C3 (amended) on the two-surf-call batch: both tool messages
are appended and `surf_forecasts` holds the last matching call's output. -/
theorem C3_execute_tools_success_witness :
    node_execute_tools surfTwiceRegistry surfTwiceState
      = (.ret { messages := some ((pendingToolCalls surfTwiceMessage).map fun c =>
                  toolMessage (successOutput surfTwiceRegistry c) c.id)
                calendar_availabilities :=
                  lastOutputFor surfTwiceRegistry "calendar_availabilities"
                    (pendingToolCalls surfTwiceMessage)
                surf_forecasts :=
                  lastOutputFor surfTwiceRegistry "surf_forecasts"
                    (pendingToolCalls surfTwiceMessage)
                train_options :=
                  lastOutputFor surfTwiceRegistry "train_options"
                    (pendingToolCalls surfTwiceMessage) },
          (pendingToolCalls surfTwiceMessage).length) :=
  (C3_execute_tools_success_amended surfTwiceRegistry surfTwiceState surfTwiceMessage
    rfl).2 (by decide) (by decide)

/-! ### Lemmas about the state merge -/

theorem accMerge_grows (old newl : List String) (x : Option ToolOutput)
    (h : accMerge old x = some newl) : ∃ t, old ++ t = newl := by
  cases x with
  | none =>
    simp only [accMerge, Option.some.injEq] at h
    exact ⟨[], by rw [List.append_nil, h]⟩
  | some out =>
    cases out with
    | ostr s => simp [accMerge] at h
    | odata items =>
      simp only [accMerge, Option.some.injEq] at h
      exact ⟨items, h⟩

/-- Destructuring one applied update: each accumulator grows by a suffix and
`trip_details` is replaced only when the update carries the key. -/
theorem applyUpdate_elim (s : AgentState) (u : NodeUpdate) (s' : AgentState)
    (h : applyUpdate s u = some s') :
    (∃ t, s.calendar_availabilities ++ t = s'.calendar_availabilities)
    ∧ (∃ t, s.surf_forecasts ++ t = s'.surf_forecasts)
    ∧ (∃ t, s.train_options ++ t = s'.train_options)
    ∧ s'.trip_details = (u.trip_details).getD s.trip_details := by
  simp only [applyUpdate, Option.bind_eq_bind, Option.bind_eq_some, Option.pure_def,
    Option.some.injEq] at h
  obtain ⟨cal, hcal, surf, hsurf, train, htrain, hs'⟩ := h
  subst hs'
  exact ⟨accMerge_grows _ _ _ hcal, accMerge_grows _ _ _ hsurf,
    accMerge_grows _ _ _ htrain, rfl⟩

theorem append_eq_imp_le {α : Type} (a b t : List α) (h : a ++ t = b) :
    a.length ≤ b.length := by
  subst h
  simp

/-- C5: merge invariants.  (1) Across any sequence of applied updates each
accumulator list keeps its prior elements as an unchanged initial segment
(never removed, replaced or reordered) and its length never decreases.
(2) An update without the `trip_details` key leaves `trip_details`
unchanged.  (3) Applying the update produced by `node_update_trip_details`
leaves every trip-detail key not present in the parsed model output at its
prior value (for the date keys, provided the prior value is not a raw
string, which the node would convert). -/
theorem C5_merge_invariants :
    (∀ (s : AgentState) (us : List NodeUpdate) (s' : AgentState),
      applyUpdates s us = some s' →
      s.calendar_availabilities <+: s'.calendar_availabilities
      ∧ s.surf_forecasts <+: s'.surf_forecasts
      ∧ s.train_options <+: s'.train_options
      ∧ s.calendar_availabilities.length ≤ s'.calendar_availabilities.length
      ∧ s.surf_forecasts.length ≤ s'.surf_forecasts.length
      ∧ s.train_options.length ≤ s'.train_options.length)
    ∧ (∀ (s : AgentState) (u : NodeUpdate) (s' : AgentState),
      applyUpdate s u = some s' → u.trip_details = none →
      s'.trip_details = s.trip_details)
    ∧ (∀ (loads : List Char → Option ParsedDetails) (fromiso : String → Option Int)
        (response : List Char) (s : AgentState) (parsed : ParsedDetails)
        (u : NodeUpdate) (s' : AgentState),
      parse_llm_json_response loads response = some parsed →
      node_update_trip_details loads fromiso response s = .ret u →
      applyUpdate s u = some s' →
      (parsed.departure_city = none →
        s'.trip_details.departure_city = s.trip_details.departure_city)
      ∧ (parsed.destination_city = none →
        s'.trip_details.destination_city = s.trip_details.destination_city)
      ∧ (parsed.desired_surf_conditions = none →
        s'.trip_details.desired_surf_conditions = s.trip_details.desired_surf_conditions)
      ∧ (parsed.departure_date = none →
        (∀ t, s.trip_details.departure_date ≠ some (.vstr t)) →
        s'.trip_details.departure_date = s.trip_details.departure_date)
      ∧ (parsed.return_date = none →
        (∀ t, s.trip_details.return_date ≠ some (.vstr t)) →
        s'.trip_details.return_date = s.trip_details.return_date)) := by
  refine ⟨?_, ?_, ?_⟩
  · intro s us
    induction us generalizing s with
    | nil =>
      intro s' h
      simp only [applyUpdates, List.foldlM_nil, Option.pure_def, Option.some.injEq] at h
      subst h
      exact ⟨⟨[], by simp⟩, ⟨[], by simp⟩, ⟨[], by simp⟩,
        Nat.le_refl _, Nat.le_refl _, Nat.le_refl _⟩
    | cons u us ih =>
      intro s' h
      simp only [applyUpdates, List.foldlM_cons] at h
      cases h1 : applyUpdate s u with
      | none =>
        rw [h1] at h
        exact Option.noConfusion h
      | some s1 =>
        rw [h1] at h
        obtain ⟨⟨t1, ht1⟩, ⟨t2, ht2⟩, ⟨t3, ht3⟩, _, _, _⟩ := ih s1 s' h
        obtain ⟨⟨r1, hr1⟩, ⟨r2, hr2⟩, ⟨r3, hr3⟩, _⟩ := applyUpdate_elim s u s1 h1
        have hc : s.calendar_availabilities ++ (r1 ++ t1) = s'.calendar_availabilities := by
          rw [← List.append_assoc, hr1, ht1]
        have hs : s.surf_forecasts ++ (r2 ++ t2) = s'.surf_forecasts := by
          rw [← List.append_assoc, hr2, ht2]
        have ht : s.train_options ++ (r3 ++ t3) = s'.train_options := by
          rw [← List.append_assoc, hr3, ht3]
        exact ⟨⟨r1 ++ t1, hc⟩, ⟨r2 ++ t2, hs⟩, ⟨r3 ++ t3, ht⟩,
          append_eq_imp_le _ _ _ hc, append_eq_imp_le _ _ _ hs, append_eq_imp_le _ _ _ ht⟩
  · intro s u s' h hnone
    obtain ⟨_, _, _, htd⟩ := applyUpdate_elim s u s' h
    rw [htd, hnone]
    rfl
  · intro loads fromiso response s parsed u s' hparse hnode happly
    simp only [node_update_trip_details, hparse] at hnode
    cases hdd : convertDateField fromiso (dictUpdate s.trip_details parsed).departure_date with
    | error e =>
      rw [hdd] at hnode
      simp at hnode
    | ok dd =>
      rw [hdd] at hnode
      cases hrr : convertDateField fromiso (dictUpdate s.trip_details parsed).return_date with
      | error e =>
        rw [hrr] at hnode
        simp at hnode
      | ok rd =>
        rw [hrr] at hnode
        simp only [NodeResult.ret.injEq] at hnode
        subst hnode
        obtain ⟨_, _, _, htd⟩ := applyUpdate_elim s _ s' happly
        rw [htd]
        refine ⟨?_, ?_, ?_, ?_, ?_⟩
        · intro h
          show (dictUpdate s.trip_details parsed).departure_city
            = s.trip_details.departure_city
          simp [dictUpdate, h, firstSome]
        · intro h
          show (dictUpdate s.trip_details parsed).destination_city
            = s.trip_details.destination_city
          simp [dictUpdate, h, firstSome]
        · intro h
          show (dictUpdate s.trip_details parsed).desired_surf_conditions
            = s.trip_details.desired_surf_conditions
          simp [dictUpdate, h, firstSome]
        · intro h hnostr
          show dd = s.trip_details.departure_date
          have hcur : (dictUpdate s.trip_details parsed).departure_date
              = s.trip_details.departure_date := by
            simp [dictUpdate, h, firstSome]
          rw [hcur] at hdd
          cases hv : s.trip_details.departure_date with
          | none =>
            rw [hv] at hdd
            simp only [convertDateField, Except.ok.injEq] at hdd
            exact hdd.symm
          | some v =>
            cases v with
            | vstr t => exact absurd hv (hnostr t)
            | vdate o =>
              rw [hv] at hdd
              simp only [convertDateField, Except.ok.injEq] at hdd
              exact hdd.symm
            | vother b =>
              rw [hv] at hdd
              simp only [convertDateField, Except.ok.injEq] at hdd
              exact hdd.symm
        · intro h hnostr
          show rd = s.trip_details.return_date
          have hcur : (dictUpdate s.trip_details parsed).return_date
              = s.trip_details.return_date := by
            simp [dictUpdate, h, firstSome]
          rw [hcur] at hrr
          cases hv : s.trip_details.return_date with
          | none =>
            rw [hv] at hrr
            simp only [convertDateField, Except.ok.injEq] at hrr
            exact hrr.symm
          | some v =>
            cases v with
            | vstr t => exact absurd hv (hnostr t)
            | vdate o =>
              rw [hv] at hrr
              simp only [convertDateField, Except.ok.injEq] at hrr
              exact hrr.symm
            | vother b =>
              rw [hv] at hrr
              simp only [convertDateField, Except.ok.injEq] at hrr
              exact hrr.symm

/-- Witness for C5 at concrete data: one applied update appends to
`surf_forecasts` keeping the prior record as a prefix; an update without
`trip_details` leaves it unchanged; a parsed output carrying only
`departure_city` leaves the other keys unchanged. -/
theorem C5_merge_invariants_witness :
    (mergeStateW.calendar_availabilities <+: mergeStateW'.calendar_availabilities
      ∧ mergeStateW.surf_forecasts <+: mergeStateW'.surf_forecasts
      ∧ mergeStateW.train_options <+: mergeStateW'.train_options
      ∧ mergeStateW.calendar_availabilities.length
          ≤ mergeStateW'.calendar_availabilities.length
      ∧ mergeStateW.surf_forecasts.length ≤ mergeStateW'.surf_forecasts.length
      ∧ mergeStateW.train_options.length ≤ mergeStateW'.train_options.length)
    ∧ mergeStateW.trip_details = mergeStateW.trip_details
    ∧ (cityStateW'.trip_details.destination_city
        = ({} : AgentState).trip_details.destination_city
      ∧ cityStateW'.trip_details.departure_date
        = ({} : AgentState).trip_details.departure_date) :=
  ⟨(C5_merge_invariants).1 mergeStateW [mergeUpdateW] mergeStateW' (by decide),
   (C5_merge_invariants).2.1 mergeStateW {} mergeStateW (by decide) rfl,
   ((C5_merge_invariants).2.2 (fun _ => some parsedCityW) (fun _ => none)
      (['{'] ++ ['}']) {} parsedCityW
      { trip_details := some { departure_city := some (.vstr "Paris") } }
      cityStateW' (by decide) (by decide) (by decide)).2.1 rfl,
   ((C5_merge_invariants).2.2 (fun _ => some parsedCityW) (fun _ => none)
      (['{'] ++ ['}']) {} parsedCityW
      { trip_details := some { departure_city := some (.vstr "Paris") } }
      cityStateW' (by decide) (by decide) (by decide)).2.2.2.1 rfl
     (fun t h => Option.noConfusion h)⟩

/-- C6: `node_check_surf_forecast` — a missing (falsy) departure date or
destination yields an error-only update without invoking the tool;
otherwise, with the surf tool registered and a date-valued departure date,
the tool is invoked once on the weekend window computed from the departure
date, an error-string result is copied into `error` (leaving
`surf_forecasts` untouched), and any other result is stored in
`surf_forecasts` (leaving `error` unset). -/
theorem C6_check_surf_forecast (surf_tool : Option (SurfArgs → ToolResult))
    (state : AgentState) :
    ((tdTruthy state.trip_details.departure_date = false
      ∨ tdTruthy state.trip_details.destination_city = false) →
      node_check_surf_forecast surf_tool state
        = (.ret { error := some "Missing departure date or destination for forecast." },
            none))
    ∧ (∀ tool o dest, surf_tool = some tool →
        state.trip_details.departure_date = some (.vdate o) →
        state.trip_details.destination_city = some dest →
        dest.truthy = true →
        ∀ out,
          tool { spot := dest
                 from_date := dateIso (get_weekend_dates o).1
                 to_date := dateIso (get_weekend_dates o).2 } = .returns out →
        (isErrOutput out = true →
          node_check_surf_forecast surf_tool state
            = (.ret { error := some (pyToString out) },
                some { spot := dest
                       from_date := dateIso (get_weekend_dates o).1
                       to_date := dateIso (get_weekend_dates o).2 }))
        ∧ (isErrOutput out = false →
          node_check_surf_forecast surf_tool state
            = (.ret { surf_forecasts := some out },
                some { spot := dest
                       from_date := dateIso (get_weekend_dates o).1
                       to_date := dateIso (get_weekend_dates o).2 }))) := by
  constructor
  · intro h
    have hcond : (!tdTruthy state.trip_details.departure_date
        || !tdTruthy state.trip_details.destination_city) = true := by
      rcases h with h | h <;> simp [h]
    simp only [node_check_surf_forecast, hcond, if_true]
  · intro tool o dest htool hdep hdest htruthy out hout
    have hvd : TDVal.truthy (.vdate o) = true := rfl
    constructor
    · intro herr
      simp only [node_check_surf_forecast, hdep, hdest, htool, tdTruthy, hvd,
        htruthy, Bool.not_true, Bool.or_self, Bool.false_eq_true, if_false,
        Option.getD_some, hout, herr, if_true]
    · intro herr
      simp only [node_check_surf_forecast, hdep, hdest, htool, tdTruthy, hvd,
        htruthy, Bool.not_true, Bool.or_self, Bool.false_eq_true, if_false,
        Option.getD_some, hout, herr]

/-- Witness for C6: a missing destination yields the error update without
invocation; with both fields present the tool is invoked on the weekend
window and its output stored in `surf_forecasts`. -/
theorem C6_check_surf_forecast_witness :
    (node_check_surf_forecast
        (some (fun _ => .returns (.odata ["F"])))
        { trip_details := { departure_date := some (.vdate 739136) } }
        = (.ret { error := some "Missing departure date or destination for forecast." },
            none))
    ∧ (node_check_surf_forecast (some (fun _ => .returns (.odata ["F"])))
        { trip_details := { departure_date := some (.vdate 739136)
                            destination_city := some (.vstr "Bayonne") } }
        = (.ret { surf_forecasts := some (.odata ["F"]) },
            some { spot := .vstr "Bayonne"
                   from_date := dateIso (get_weekend_dates 739136).1
                   to_date := dateIso (get_weekend_dates 739136).2 })) :=
  ⟨(C6_check_surf_forecast (some (fun _ => .returns (.odata ["F"])))
      { trip_details := { departure_date := some (.vdate 739136) } }).1
      (Or.inr (by decide)),
   ((C6_check_surf_forecast (some (fun _ => .returns (.odata ["F"])))
      { trip_details := { departure_date := some (.vdate 739136)
                          destination_city := some (.vstr "Bayonne") } }).2
      (fun _ => .returns (.odata ["F"])) 739136 (.vstr "Bayonne")
      rfl rfl rfl (by decide) (.odata ["F"]) rfl).2 (by decide)⟩

/-- C10: when the parsed model response maps `departure_date` (or, with a
convertible or absent departure date, `return_date`) to a string that
`date.fromisoformat` rejects, `node_update_trip_details` raises an uncaught
`ValueError`: the except clause catches only `json.JSONDecodeError` and
`TypeError`, so the empty-update fallback does not cover malformed date
strings. -/
theorem C10_bad_iso_date_raises (loads : List Char → Option ParsedDetails)
    (fromiso : String → Option Int) (response : List Char) (state : AgentState)
    (parsed : ParsedDetails)
    (hparse : parse_llm_json_response loads response = some parsed) :
    (∀ s, parsed.departure_date = some (.jstr s) → fromiso s = none →
      node_update_trip_details loads fromiso response state = .raise "ValueError")
    ∧ (∀ s, parsed.departure_date = none →
        (∀ t, state.trip_details.departure_date ≠ some (.vstr t)) →
        parsed.return_date = some (.jstr s) → fromiso s = none →
        node_update_trip_details loads fromiso response state = .raise "ValueError") := by
  constructor
  · intro s hd hf
    have hdd : (dictUpdate state.trip_details parsed).departure_date = some (.vstr s) := by
      simp [dictUpdate, hd, jToTD, firstSome]
    simp only [node_update_trip_details, hparse, hdd, convertDateField, hf]
  · intro s hd hnostr hr hf
    have hdd : (dictUpdate state.trip_details parsed).departure_date
        = state.trip_details.departure_date := by
      simp [dictUpdate, hd, firstSome]
    have hconv : convertDateField fromiso
        (dictUpdate state.trip_details parsed).departure_date
        = .ok ((dictUpdate state.trip_details parsed).departure_date) := by
      rw [hdd]
      cases hcur : state.trip_details.departure_date with
      | none => rfl
      | some v =>
        cases v with
        | vstr t => exact absurd hcur (hnostr t)
        | vdate o => rfl
        | vother b => rfl
    have hrr : (dictUpdate state.trip_details parsed).return_date = some (.vstr s) := by
      simp [dictUpdate, hr, jToTD, firstSome]
    have hconv2 : convertDateField fromiso
        (dictUpdate state.trip_details parsed).return_date = .error "ValueError" := by
      rw [hrr]
      simp only [convertDateField, hf]
    simp only [node_update_trip_details, hparse, hconv, hconv2]

/-- Witness for C10: a parsed response with `departure_date = "not-a-date"`
(rejected by the ISO parser) makes the node raise `ValueError` on the empty
state. -/
theorem C10_bad_iso_date_raises_witness :
    node_update_trip_details
      (fun _ => some { departure_date := some (.jstr "not-a-date") })
      (fun _ => none) (['{'] ++ ['}']) {} = .raise "ValueError" :=
  (C10_bad_iso_date_raises
    (fun _ => some { departure_date := some (.jstr "not-a-date") })
    (fun _ => none) (['{'] ++ ['}']) {} { departure_date := some (.jstr "not-a-date") }
    (by decide)).1 "not-a-date" rfl rfl

end SurfPlanner
